import Mathlib

/-!
# Verification of the trade_bot real-time execution and streaming core

This file is a shallow embedding, in Lean 4, of the parts of the
`trade_bot` repository that the specification talks about:

* `BasicBot.twap` and `BasicBot.grid`
  (`trading_bot_backend/bot/bot_logic.py`), the slice-based execution
  strategies, modelled against an explicit order-gateway oracle;
* `BasicBot.place_twap_order` and `BasicBot.place_grid_orders`
  (`codebase.py`), the second variant of the strategies;
* `BasicBot.place_order`'s construction of the parameter dictionary that
  is sent to the exchange;
* `BasicBot.broadcast_to_clients`, `BasicBot._process_user_data_message`,
  `BasicBot.get_account_info`;
* the user-data-stream lifecycle
  (`add_websocket_client` / `remove_websocket_client` /
  `start_user_data_stream` / `stop_user_data_stream`), modelled as a
  transition system whose atomic steps are the lock-protected critical
  sections of the Python code (the `asyncio.Lock` serializes them).

Python `float` quantities and prices are modelled as rationals (`ℚ`);
Python's `round(x, 8)` is modelled as rounding to the nearest multiple of
`10⁻⁸`.  Exceptions are modelled with `Except`/`Option` or explicit
outcome tags.  External collaborators (the Binance client, the
`ThreadedWebsocketManager`, websocket peers) are modelled as oracle
parameters of the functions that call them.
-/

namespace TradeBot

/-- A subscriber websocket connection (the FastAPI `WebSocket` objects held
in `BasicBot.active_websockets`), identified opaquely. -/
abbrev Client := Nat

/-- Python's `round(x, 8)`: round to the nearest multiple of `10⁻⁸`.
(Python rounds representational ties to even; `round` here rounds ties up.
The two agree except at exact ties of the scaled value, which is
immaterial to every property stated below — all of them hold for any
round-to-nearest tie rule.) -/
def round8 (x : ℚ) : ℚ := ((round (x * 100000000) : ℤ) : ℚ) / 100000000

/-- A value stored in the `order_params` dictionary that `place_order`
builds and passes to `client.create_order`. -/
inductive PValue
  | str (v : String)
  | num (v : ℚ)
deriving Repr, DecidableEq

/-- The `order_params` dictionary of `place_order`, as an ordered list of
key/value pairs (insertion order, as in the Python dict literal). -/
abbrev OrderParams := List (String × PValue)

/-- The parameters `place_order` builds for a MARKET order
(`bot_logic.py`, lines 99–105): `symbol`, `side`, `quantity`, then
`type = MARKET`.  No client-order-id / idempotency field is ever added. -/
def marketOrderParams (symbol side : String) (quantity : ℚ) : OrderParams :=
  [("symbol", .str symbol.toUpper), ("side", .str side.toUpper),
   ("quantity", .num quantity), ("type", .str "MARKET")]

/-- The parameters `place_order` builds for a LIMIT order
(`bot_logic.py`, lines 99–108): `symbol`, `side`, `quantity`, then
`type = LIMIT`, `timeInForce = GTC` and the price.  (`format_price` is the
exchange client's venue formatting; the value recorded here is the price
the strategy computed and handed to `place_order`.)  No client-order-id /
idempotency field is ever added. -/
def limitOrderParams (symbol side : String) (quantity price : ℚ) : OrderParams :=
  [("symbol", .str symbol.toUpper), ("side", .str side.toUpper),
   ("quantity", .num quantity), ("type", .str "LIMIT"),
   ("timeInForce", .str "GTC"), ("price", .num price)]

/-- Does the parameter dictionary carry a given key? -/
def hasParamKey (p : OrderParams) (key : String) : Bool :=
  p.any (fun kv => kv.1 = key)

/-- Does an order carry any idempotency key?  On the Binance spot API the
only such field is the client order id (`newClientOrderId`); the claims
also name it `idempotencyKey`, so both spellings are checked. -/
def hasIdempotencyKey (p : OrderParams) : Bool :=
  hasParamKey p "newClientOrderId" || hasParamKey p "idempotencyKey"

/-- The order gateway as seen by `bot_logic.py`'s strategies: the `i`-th
call to `place_order` (with the given parameters) either returns a
successfully placed order (its exchange order id) or raises — modelled as
`Except`: `bot_logic.place_order` either returns
`{"status": "success", "order": ...}` or raises an exception. -/
abbrev Gateway := Nat → OrderParams → Except String Nat

/-- What a strategy run did: the parameters of every `place_order` call it
made, in order, and the ids of the successfully placed orders
(`placed_orders` in the source), in order. -/
structure RunTrace where
  calls : List OrderParams
  placed : List Nat
deriving Repr, DecidableEq

/-- How a `bot_logic.py` strategy run ended: `rejected` is the
`ValueError` raised by a precondition check before any slice;
`aborted i e` is the exception re-raised when the placement at
slice/level `i` failed (the strategy's `except` blocks wrap and re-raise);
`completed` is the success return. -/
inductive RunOutcome
  | rejected (msg : String)
  | aborted (slice : Nat) (msg : String)
  | completed
deriving Repr, DecidableEq

/-- The slice loop shared by `twap` (lines 144–160) and `grid`
(lines 178–192) of `bot_logic.py`: execute intents `intent i`,
`intent (i+1)`, … for `n` slices strictly sequentially; a successful
placement is appended to `placed_orders` and the loop continues; a failed
placement raises, which aborts the whole run (the `except slice_e` blocks
re-raise). -/
def runSlices (g : Gateway) (intent : Nat → OrderParams) :
    Nat → Nat → RunTrace × RunOutcome
  | _, 0 => (⟨[], []⟩, .completed)
  | i, n+1 =>
    match g i (intent i) with
    | .ok oid =>
      let rest := runSlices g intent (i+1) n
      (⟨intent i :: rest.1.calls, oid :: rest.1.placed⟩, rest.2)
    | .error e => (⟨[intent i], []⟩, .aborted i e)

/-- `BasicBot.twap` (`bot_logic.py`, lines 136–168).  Validation raises
`ValueError` before any slice; the per-slice quantity is
`round(total_qty / slices, 8)`; each slice is a MARKET order placed
through `place_order`; the inter-slice `time.sleep` does not affect the
trace or outcome and is elided. -/
def twap (g : Gateway) (symbol side : String) (total_qty interval_sec : ℚ)
    (slices : ℤ) : RunTrace × RunOutcome :=
  if slices ≤ 0 then
    (⟨[], []⟩, .rejected "Number of slices must be greater than 0.")
  else if total_qty ≤ 0 then
    (⟨[], []⟩, .rejected "Total quantity must be greater than 0.")
  else if interval_sec ≤ 0 then
    (⟨[], []⟩, .rejected "Interval must be greater than 0.")
  else
    let qty_per_order := round8 (total_qty / (slices : ℚ))
    runSlices g (fun _ => marketOrderParams symbol side qty_per_order) 0 slices.toNat

/-- Level `i`'s price before rounding:
`lower_price + i * (upper_price - lower_price) / (grids - 1)`
(`bot_logic.py`, lines 176 and 179). -/
def gridLevelPriceExact (lower_price upper_price : ℚ) (grids : ℤ) (i : ℕ) : ℚ :=
  lower_price + (i : ℚ) * ((upper_price - lower_price) / ((grids : ℚ) - 1))

/-- Level `i`'s computed price `round(lower_price + i * price_step, 8)`
(`bot_logic.py`, line 179). -/
def gridLevelPrice (lower_price upper_price : ℚ) (grids : ℤ) (i : ℕ) : ℚ :=
  round8 (gridLevelPriceExact lower_price upper_price grids i)

/-- `BasicBot.grid` (`bot_logic.py`, lines 170–200).  Validation raises
`ValueError` before any level; level `i` is a LIMIT order of the given
side for `quantity` at `gridLevelPrice … i`; a failed placement aborts the
run (same re-raise pattern as `twap`). -/
def grid (g : Gateway) (symbol : String) (lower_price upper_price : ℚ)
    (grids : ℤ) (quantity : ℚ) (side : String) : RunTrace × RunOutcome :=
  if grids ≤ 1 then
    (⟨[], []⟩, .rejected "Number of grid levels must be at least 2.")
  else if upper_price ≤ lower_price then
    (⟨[], []⟩, .rejected "Lower price must be less than upper price.")
  else if quantity ≤ 0 then
    (⟨[], []⟩, .rejected "Quantity per grid must be greater than 0.")
  else
    runSlices g
      (fun i => limitOrderParams symbol side quantity
        (gridLevelPrice lower_price upper_price grids i)) 0 grids.toNat

/-- The order gateway as seen by `codebase.py`: its `place_order` returns
the order on success and `None` on any failure (it catches its own
exceptions), so the `i`-th call yields `Option`. -/
abbrev OptGateway := Nat → OrderParams → Option Nat

/-- The interval loop of `codebase.py`'s `place_twap_order`
(lines 380–396): every one of the `n` intervals is attempted; the result
of each attempt is kept in order (`some` = the order, `none` = the logged
failure).  Sleeps and the random pacing jitter are elided. -/
def placeTwapSlices (g : OptGateway) (intent : OrderParams) :
    Nat → Nat → List (Option Nat)
  | _, 0 => []
  | i, n+1 => g i intent :: placeTwapSlices g intent (i+1) n

/-- `BasicBot.place_twap_order` (`codebase.py`, lines 362–403): returns
`none` when `intervals ≤ 0 or duration_min ≤ 0` (the validation error
path), otherwise attempts all `intervals` chunks of size
`quantity / intervals` and never aborts on a failed chunk.  The value
returned to the caller in the source is the list of successful orders,
`(placeTwapSlices …).filterMap id`; the full per-attempt list is kept here
so the trace is visible. -/
def place_twap_order (g : OptGateway) (symbol side : String)
    (quantity duration_min : ℚ) (intervals : ℤ) : Option (List (Option Nat)) :=
  if intervals ≤ 0 ∨ duration_min ≤ 0 then none
  else
    let chunk_size := quantity / (intervals : ℚ)
    some (placeTwapSlices g (marketOrderParams symbol side chunk_size) 0 intervals.toNat)

/-- `BasicBot.broadcast_to_clients` (`bot_logic.py`, lines 220–234) for a
single published message.  `sendOk c` says whether `c.send_json` succeeds
during this publish call.  The loop attempts every current subscriber (a
copy of the list is iterated); a raising send is caught, the subscriber is
marked, and after the loop the marked subscribers are removed.  Returns
(the subscribers that received the message, in order; the subscriber list
after the call). -/
def broadcastToClients (sendOk : Client → Bool) (active : List Client) :
    List Client × List Client :=
  if active = [] then ([], active)
  else
    let delivered := active.filter (fun c => sendOk c)
    let clients_to_remove := active.filter (fun c => !(sendOk c))
    (delivered, active.filter (fun c => !(clients_to_remove.contains c)))

/-- One entry of the `'B'` array of an `outboundAccountPosition` upstream
message: asset tag `'a'`, free amount `'f'`, locked amount `'l'` (each may
be absent; the code reads `b.get('f', 0.0)`). -/
structure RawBalance where
  a : Option String
  f : Option ℚ
  l : Option ℚ
deriving Repr, DecidableEq

/-- A raw upstream user-data message, restricted to the keys
`_process_user_data_message` reads: the event-type tag `'e'`, the error
text `'m'`, the `executionReport` payload fields, and the balance array
`'B'`.  (Keys the handler never reads are irrelevant to its behaviour and
are not modelled.) -/
structure RawMsg where
  e : Option String
  m : Option String
  i : Option Int
  s : Option String
  S : Option String
  o : Option String
  X : Option String
  q : Option String
  p : Option String
  z : Option String
  L : Option String
  n : Option String
  N : Option String
  T : Option Int
  O : Option Int
  B : List RawBalance
deriving Repr, DecidableEq

/-- A raw message with every field absent, for building concrete
messages field by field. -/
def RawMsg.empty : RawMsg :=
  ⟨none, none, none, none, none, none, none, none,
   none, none, none, none, none, none, none, []⟩

/-- The `order_update` dictionary built from an `executionReport`
(`bot_logic.py`, lines 245–252). -/
structure OrderUpdate where
  orderId : Option Int
  symbol : Option String
  side : Option String
  orderType : Option String
  status : Option String
  quantity : Option String
  price : Option String
  executedQuantity : Option String
  lastExecutedPrice : Option String
  commission : Option String
  commissionAsset : Option String
  transactionTime : Option Int
  orderTime : Option Int
deriving Repr, DecidableEq

/-- One entry of the `balances` list of a `balance_update` message
(`bot_logic.py`, lines 255–259). -/
structure BalanceOut where
  asset : Option String
  free : Option ℚ
  locked : Option ℚ
deriving Repr, DecidableEq

/-- The `processed_message` that `_process_user_data_message` builds:
`error`, `order_update` or `balance_update`. -/
inductive ProcessedMsg
  | errorData (raw : RawMsg)
  | orderUpdate (u : OrderUpdate)
  | balanceUpdate (balances : List BalanceOut)
deriving Repr, DecidableEq

/-- The decode step of `_process_user_data_message` (`bot_logic.py`,
lines 236–263): classify by the `'e'` tag; an `outboundAccountPosition`
whose non-zero-balance list is empty, and any unrecognized event type,
leave `processed_message = None`. -/
def processUserDataMessage (msg : RawMsg) : Option ProcessedMsg :=
  if msg.e = some "error" then some (.errorData msg)
  else if msg.e = some "executionReport" then
    some (.orderUpdate
      { orderId := msg.i, symbol := msg.s, side := msg.S, orderType := msg.o,
        status := msg.X, quantity := msg.q, price := msg.p,
        executedQuantity := msg.z, lastExecutedPrice := msg.L,
        commission := msg.n, commissionAsset := msg.N,
        transactionTime := msg.T, orderTime := msg.O })
  else if msg.e = some "outboundAccountPosition" then
    let active_balances :=
      (msg.B.filter fun b =>
          decide (0 < b.f.getD 0) || decide (0 < b.l.getD 0)).map
        fun b => ({ asset := b.a, free := b.f, locked := b.l } : BalanceOut)
    if active_balances = [] then none else some (.balanceUpdate active_balances)
  else none

/-- An observable delivery made while handling one upstream message.  The
`toTradeRecorder` constructor expresses the specification's TradeRecorder
boundary (`RecordFill`), so that its presence or absence can be stated;
the handler translated below is the place that would have to produce
it. -/
inductive Delivery
  | toSubscriber (c : Client) (msg : ProcessedMsg)
  | toTradeRecorder (msg : ProcessedMsg)
deriving Repr, DecidableEq

/-- Is this delivery a TradeRecorder notification? -/
def Delivery.isRecorderNotification : Delivery → Bool
  | .toTradeRecorder _ => true
  | _ => false

/-- The full effect of `_process_user_data_message` on one raw message
(`bot_logic.py`, lines 236–275): decode, and if a processed message was
built, schedule one `broadcast_to_clients` for it.  The source contains
no call to any trade-recording collaborator, so no `toTradeRecorder`
delivery is ever produced.  Returns (deliveries made, subscriber list
after the call). -/
def handleUserDataMessage (sendOk : Client → Bool) (msg : RawMsg)
    (active : List Client) : List Delivery × List Client :=
  match processUserDataMessage msg with
  | none => ([], active)
  | some pm =>
    let r := broadcastToClients sendOk active
    (r.1.map fun c => Delivery.toSubscriber c pm, r.2)

/-- One entry of `account_info['balances']` after the `float` conversions
in `get_account_info`. -/
structure AccountBalance where
  asset : String
  free : ℚ
  locked : ℚ
deriving Repr, DecidableEq

/-- The balance filter of `BasicBot.get_account_info` (`bot_logic.py`,
lines 57–66): keep exactly the balances with `free > 0 or locked > 0`.
The function returns `{"status": "success", "balances": …}`; the balances
list is the part modelled. -/
def get_account_info (balances : List AccountBalance) : List AccountBalance :=
  balances.filter fun b => decide (0 < b.free) || decide (0 < b.locked)

/-! ## The user-data-stream lifecycle

`BasicBot`'s stream state (`bot_logic.py`, lines 35–39) together with the
upstream world: which upstream user-data sockets are currently open, and
how many were ever opened.  One `BasicBot` instance holds one trading
identity (the credentials from `env.py`), so "per identity" is "per
instance" here.  Each operation below is one lock-protected critical
section of the source (`async with self._lock`), so an arbitrary
interleaving of concurrent callers is an arbitrary finite sequence of
these atomic operations. -/

/-- The stream-related fields of `BasicBot`. -/
structure BotState where
  activeWebsockets : List Client
  userDataStreamStarted : Bool
  userDataStreamKey : Option Nat
  twm : Option Nat
deriving Repr, DecidableEq

/-- `BasicBot.__init__` (`bot_logic.py`, lines 35–38). -/
def initBot : BotState := ⟨[], false, none, none⟩

/-- The bot state plus the upstream world: `live` is the list of
(manager id, socket key) pairs of upstream user-data sockets currently
open; `created` counts sockets ever opened by `start_user_socket`;
`fresh` supplies fresh manager ids and socket keys. -/
structure StreamWorld where
  bot : BotState
  live : List (Nat × Nat)
  created : Nat
  fresh : Nat
deriving Repr, DecidableEq

/-- The initial world: a fresh `BasicBot`, nothing live upstream. -/
def initWorld : StreamWorld := ⟨initBot, [], 0, 0⟩

/-- How the environment behaves during one `start_user_data_stream`
critical section: `ok` — `start_user_socket` returns a stream key;
`nokey` — it returns a falsy key (line 296's branch); `raiseErr` — the
manager construction/start raises (line 298's branch). -/
inductive StartEnv
  | ok
  | nokey
  | raiseErr
deriving Repr, DecidableEq

/-- How the environment behaves during one `stop_user_data_stream`
critical section: `ok` — the body runs to completion;
`failStopSocket` — `twm.stop_socket` raises, so the upstream socket is
not closed (line 321's branch); `failJoin` — `twm.join` raises after the
socket was closed (same branch, later failure point). -/
inductive StopEnv
  | ok
  | failStopSocket
  | failJoin
deriving Repr, DecidableEq

/-- `BasicBot.start_user_data_stream` (`bot_logic.py`, lines 277–301) as
one atomic step.  Under the lock: return if already started; otherwise
stop a stale manager if one is present (closing all its sockets), start a
new manager, and ask it for a user-data socket.  On `ok` the key is
stored and the started flag set; on a falsy key or an exception the new
manager is stopped again and cleared, leaving the stream not started. -/
def startUserDataStream (env : StartEnv) (w : StreamWorld) : StreamWorld :=
  if w.bot.userDataStreamStarted then w
  else
    let live1 := match w.bot.twm with
      | some m0 => w.live.filter fun pr => decide (pr.1 ≠ m0)
      | none => w.live
    let mgr := w.fresh
    match env with
    | .ok =>
      let key := w.fresh + 1
      { bot := { w.bot with
                 twm := some mgr
                 userDataStreamKey := some key
                 userDataStreamStarted := true }
        live := (mgr, key) :: live1
        created := w.created + 1
        fresh := w.fresh + 2 }
    | .nokey =>
      { bot := { w.bot with twm := none, userDataStreamKey := none }
        live := live1.filter fun pr => decide (pr.1 ≠ mgr)
        created := w.created
        fresh := w.fresh + 1 }
    | .raiseErr =>
      { bot := { w.bot with twm := none, userDataStreamStarted := false }
        live := live1.filter fun pr => decide (pr.1 ≠ mgr)
        created := w.created
        fresh := w.fresh + 1 }

/-- `BasicBot.stop_user_data_stream` (`bot_logic.py`, lines 303–325) as
one atomic step.  Under the lock: return if not started or no manager;
otherwise stop the stored socket, join the manager thread, and clear key,
flag and manager.  In the `except` branch (lines 321–325) the flag and
manager are cleared but the key assignment on line 317 is not reached. -/
def stopUserDataStream (env : StopEnv) (w : StreamWorld) : StreamWorld :=
  if w.bot.userDataStreamStarted = false ∨ w.bot.twm = none then w
  else
    match env with
    | .failStopSocket =>
      { w with bot := { w.bot with userDataStreamStarted := false, twm := none } }
    | .failJoin =>
      let live1 := match w.bot.userDataStreamKey with
        | some k => w.live.filter fun pr => decide (pr.2 ≠ k)
        | none => w.live
      { w with
        live := live1
        bot := { w.bot with userDataStreamStarted := false, twm := none } }
    | .ok =>
      let live1 := match w.bot.userDataStreamKey with
        | some k => w.live.filter fun pr => decide (pr.2 ≠ k)
        | none => w.live
      { w with
        live := live1
        bot := { w.bot with
                 userDataStreamKey := none
                 userDataStreamStarted := false
                 twm := none } }

/-- The locked part of `BasicBot.add_websocket_client` (`bot_logic.py`,
lines 203–207): append the client if not already present.  (The
subsequent conditional call to `start_user_data_stream` on lines 208–209
happens outside this critical section and is a separate atomic step in
any interleaving.) -/
def addWebsocketClient (c : Client) (w : StreamWorld) : StreamWorld :=
  if w.bot.activeWebsockets.contains c then w
  else { w with bot :=
    { w.bot with activeWebsockets := w.bot.activeWebsockets ++ [c] } }

/-- The locked part of `BasicBot.remove_websocket_client` (`bot_logic.py`,
lines 211–215): remove the client if present. -/
def removeWebsocketClient (c : Client) (w : StreamWorld) : StreamWorld :=
  { w with bot :=
    { w.bot with activeWebsockets := w.bot.activeWebsockets.erase c } }

/-- One atomic lifecycle step: any of the four lock-protected critical
sections, with its environment behaviour. -/
inductive Op
  | addClient (c : Client)
  | removeClient (c : Client)
  | startStream (env : StartEnv)
  | stopStream (env : StopEnv)
deriving Repr, DecidableEq

/-- Execute one atomic step. -/
def stepW : Op → StreamWorld → StreamWorld
  | .addClient c, w => addWebsocketClient c w
  | .removeClient c, w => removeWebsocketClient c w
  | .startStream env, w => startUserDataStream env w
  | .stopStream env, w => stopUserDataStream env w

/-- Execute a finite sequence of atomic steps — one interleaving of any
number of concurrent attach/detach/start/stop callers. -/
def runW (ops : List Op) (w : StreamWorld) : StreamWorld :=
  ops.foldl (fun w op => stepW op w) w

/-- The session invariant: every live upstream socket belongs to the
current manager and carries the stored stream key — in particular there
is at most one. -/
def SessionInv (w : StreamWorld) : Prop :=
  match w.bot.twm with
  | none => w.live = []
  | some mgr => w.live = [] ∨
      ∃ k, w.bot.userDataStreamKey = some k ∧ w.live = [(mgr, k)]

/-! ## Helper lemmas about the slice loops -/

/-- Unfolding `runSlices` at a successful placement. -/
theorem runSlices_succ_ok {g : Gateway} {intent : Nat → OrderParams} {i n oid : Nat}
    (hg : g i (intent i) = .ok oid) :
    runSlices g intent i (n + 1)
      = (⟨intent i :: (runSlices g intent (i + 1) n).1.calls,
          oid :: (runSlices g intent (i + 1) n).1.placed⟩,
         (runSlices g intent (i + 1) n).2) := by
  conv_lhs => rw [runSlices]
  rw [hg]

/-- Unfolding `runSlices` at a failed placement. -/
theorem runSlices_succ_error {g : Gateway} {intent : Nat → OrderParams} {i n : Nat}
    {e : String} (hg : g i (intent i) = .error e) :
    runSlices g intent i (n + 1) = (⟨[intent i], []⟩, .aborted i e) := by
  conv_lhs => rw [runSlices]
  rw [hg]

/-- At most `n` placements are made by an `n`-slice run. -/
theorem runSlices_calls_length_le (g : Gateway) (intent : Nat → OrderParams) :
    ∀ n i, (runSlices g intent i n).1.calls.length ≤ n := by
  intro n
  induction n with
  | zero => intro i; simp [runSlices]
  | succ n ih =>
    intro i
    cases hg : g i (intent i) with
    | ok oid =>
      simpa [runSlices, hg] using ih (i + 1)
    | error e =>
      simp [runSlices, hg]

/-- Whatever the gateway does, the `j`-th placement attempted by the slice
loop started at index `i` carries the intent for index `i + j`. -/
theorem runSlices_calls_get (g : Gateway) (intent : Nat → OrderParams) :
    ∀ n i j, j < (runSlices g intent i n).1.calls.length →
      (runSlices g intent i n).1.calls.get? j = some (intent (i + j)) := by
  intro n
  induction n with
  | zero => intro i j h; simp [runSlices] at h
  | succ n ih =>
    intro i j h
    cases hg : g i (intent i) with
    | ok oid =>
      rw [runSlices_succ_ok hg] at h ⊢
      match j with
      | 0 => simp
      | j + 1 =>
        have hj : j < (runSlices g intent (i + 1) n).1.calls.length := by
          simpa using Nat.lt_of_succ_lt_succ h
        have := ih (i + 1) j hj
        simp only [List.get?_cons_succ]
        rw [this]
        congr 2
        omega
    | error e =>
      rw [runSlices_succ_error hg] at h ⊢
      match j with
      | 0 => simp
      | j + 1 => simp at h

/-- If every slice's placement succeeds, the loop completes, attempting
all `n` slices and collecting `n` placed orders. -/
theorem runSlices_all_ok (g : Gateway) (intent : Nat → OrderParams) :
    ∀ n i, (∀ j, j < n → ∃ oid, g (i + j) (intent (i + j)) = .ok oid) →
      (runSlices g intent i n).1.calls.length = n ∧
      (runSlices g intent i n).1.placed.length = n ∧
      (runSlices g intent i n).2 = .completed := by
  intro n
  induction n with
  | zero => intro i _; simp [runSlices]
  | succ n ih =>
    intro i hok
    obtain ⟨oid, hg⟩ := by simpa using hok 0 (Nat.succ_pos n)
    have hrest := ih (i + 1) (fun j hj => by
      simpa [Nat.add_assoc, Nat.add_comm 1 j] using hok (j + 1) (Nat.succ_lt_succ hj))
    rw [runSlices_succ_ok hg]
    exact ⟨by simp [hrest.1], by simp [hrest.2.1], hrest.2.2⟩

/-- If the placements at indices `i, …, i+j-1` succeed and the placement
at index `i+j` fails, the loop stops there: `j + 1` placements were
attempted and the run is aborted at slice `i + j` with the gateway's
error. -/
theorem runSlices_first_fail (g : Gateway) (intent : Nat → OrderParams) :
    ∀ n i j e, j < n →
      (∀ t, t < j → ∃ oid, g (i + t) (intent (i + t)) = .ok oid) →
      g (i + j) (intent (i + j)) = .error e →
      (runSlices g intent i n).1.calls.length = j + 1 ∧
      (runSlices g intent i n).2 = .aborted (i + j) e := by
  intro n
  induction n with
  | zero => intro i j e hj _ _; exact absurd hj (Nat.not_lt_zero j)
  | succ n ih =>
    intro i j e hj hok hfail
    match j with
    | 0 =>
      have hf : g i (intent i) = .error e := by simpa using hfail
      rw [runSlices_succ_error hf]
      simp
    | j + 1 =>
      obtain ⟨oid, hg⟩ := by simpa using hok 0 (Nat.succ_pos j)
      have hok' : ∀ t, t < j → ∃ oid, g ((i + 1) + t) (intent ((i + 1) + t)) = .ok oid := by
        intro t ht
        simpa [Nat.add_assoc, Nat.add_comm 1 t] using hok (t + 1) (Nat.succ_lt_succ ht)
      have hfail' : g ((i + 1) + j) (intent ((i + 1) + j)) = .error e := by
        simpa [Nat.add_assoc, Nat.add_comm 1 j] using hfail
      have := ih (i + 1) j e (Nat.lt_of_succ_lt_succ hj) hok' hfail'
      refine ⟨?_, ?_⟩
      · rw [runSlices_succ_ok hg]
        simp [this.1]
      · rw [runSlices_succ_ok hg, this.2]
        congr 1
        omega

/-- Every one of the `n` intervals of `placeTwapSlices` is attempted. -/
theorem placeTwapSlices_length (g : OptGateway) (intent : OrderParams) :
    ∀ n i, (placeTwapSlices g intent i n).length = n := by
  intro n
  induction n with
  | zero => intro i; simp [placeTwapSlices]
  | succ n ih => intro i; simp [placeTwapSlices, ih (i + 1)]

/-- The `j`-th recorded attempt of `placeTwapSlices` is the gateway's
answer for call `i + j`. -/
theorem placeTwapSlices_get (g : OptGateway) (intent : OrderParams) :
    ∀ n i j, j < n →
      (placeTwapSlices g intent i n).get? j = some (g (i + j) intent) := by
  intro n
  induction n with
  | zero => intro i j h; simp at h
  | succ n ih =>
    intro i j h
    match j with
    | 0 => simp [placeTwapSlices]
    | j + 1 =>
      have := ih (i + 1) j (Nat.lt_of_succ_lt_succ h)
      simp only [placeTwapSlices, List.get?_cons_succ]
      rw [this]
      congr 2
      omega

/-! ## Helper lemmas about `round8` -/

/-- Rounding to 8 decimal places moves a value by at most half of
`10⁻⁸`. -/
theorem abs_round8_sub_le (x : ℚ) : |round8 x - x| ≤ 1 / 200000000 := by
  have h := abs_sub_round (x * 100000000)
  have e : round8 x - x
      = -((x * 100000000 - ((round (x * 100000000) : ℤ) : ℚ)) / 100000000) := by
    rw [round8]; ring
  rw [e, abs_neg, abs_div, abs_of_pos (show (0 : ℚ) < 100000000 by norm_num)]
  linarith

/-- Rounding to 8 decimal places is monotone. -/
theorem round8_mono {x y : ℚ} (h : x ≤ y) : round8 x ≤ round8 y := by
  have hr : round (x * 100000000) ≤ round (y * 100000000) := by
    rw [round_eq, round_eq]
    exact Int.floor_le_floor (by linarith)
  have hc : ((round (x * 100000000) : ℤ) : ℚ) ≤ ((round (y * 100000000) : ℤ) : ℚ) := by
    exact_mod_cast hr
  rw [round8, round8]
  linarith

/-! ## Concrete gateways for counterexamples and witnesses -/

/-- A gateway whose every placement fails. -/
def failingGateway : Gateway := fun _ _ => .error "gateway failure"

/-- A gateway whose every placement succeeds. -/
def alwaysOkGateway : Gateway := fun i _ => .ok (100 + i)

/-- A gateway that fails exactly the second placement (index 1). -/
def slice2FailGateway : Gateway :=
  fun i _ => if i = 1 then .error "venue rejection" else .ok (100 + i)

/-- The `codebase.py` gateway that fails exactly the second placement. -/
def slice2FailOptGateway : OptGateway :=
  fun i _ => if i = 1 then none else some (100 + i)

/-! ## C1 — TWAP failure policy -/

/-- C1, counterexample.  The claim says a TWAP run records exactly
`slices` slice outcomes, continuing past failed slices, with overall
status `PartiallyFailed` when some slice failed.  On the code this is
false: in `BasicBot.twap` (`bot_logic.py`, lines 146–157) a failed
placement is re-raised, aborting the run.  Concretely, for
`twap(symbol="BTCUSDT", side="BUY", total_qty=0.003, interval_sec=1,
slices=2)` against a gateway whose placements fail, only 1 of the 2
slices is ever attempted and the run ends by raising at slice 0 — there
is no `PartiallyFailed` result and no recorded `Failed` outcome. -/
theorem twap_failed_slice_aborts_run_cex :
    (twap failingGateway "BTCUSDT" "BUY" (3/1000) 1 2).1.calls.length = 1 ∧
    (twap failingGateway "BTCUSDT" "BUY" (3/1000) 1 2).2
      = RunOutcome.aborted 0 "gateway failure" ∧
    (twap failingGateway "BTCUSDT" "BUY" (3/1000) 1 2).2 ≠ RunOutcome.completed := by
  have h1 : ¬ ((2 : ℤ) ≤ 0) := by norm_num
  have h2 : ¬ ((3/1000 : ℚ) ≤ 0) := by norm_num
  have h3 : ¬ ((1 : ℚ) ≤ 0) := by norm_num
  have htw : twap failingGateway "BTCUSDT" "BUY" (3/1000) 1 2
      = runSlices failingGateway
          (fun _ => marketOrderParams "BTCUSDT" "BUY" (round8 ((3/1000) / ((2 : ℤ) : ℚ))))
          0 (2 : ℤ).toNat := by
    simp [twap, h1, h2, h3]
  have hfail : failingGateway 0
      (marketOrderParams "BTCUSDT" "BUY" (round8 ((3/1000) / ((2 : ℤ) : ℚ))))
      = .error "gateway failure" := rfl
  have hrun := @runSlices_succ_error failingGateway
    (fun _ => marketOrderParams "BTCUSDT" "BUY" (round8 ((3/1000) / ((2 : ℤ) : ℚ))))
    0 1 "gateway failure" hfail
  rw [htw, show (2 : ℤ).toNat = 1 + 1 from rfl, hrun]
  exact ⟨rfl, rfl, by simp⟩

/-- C1, amended.  `bot_logic.py`'s `twap` aborts at the first failed
slice: (a) when every placement succeeds, all `slices` slices are
attempted, all orders are placed and the run completes; (b) when the
first failure happens at slice `j`, exactly `j + 1` slices are attempted
and the run raises (`aborted`) at slice `j` — no `Failed` outcome is
recorded and no `PartiallyFailed` status exists.  (c) `codebase.py`'s
`place_twap_order` does continue past failures — all `intervals` chunks
are attempted regardless of per-chunk failures — but it records only the
successful orders; a failed chunk is logged, not recorded. -/
theorem twap_abort_and_place_twap_order_continue
    (g : Gateway) (og : OptGateway) (symbol side : String)
    (total_qty interval_sec duration_min : ℚ) (slices : ℤ)
    (hs : 0 < slices) (hq : 0 < total_qty) (hi : 0 < interval_sec)
    (hd : 0 < duration_min) :
    ((∀ j, j < slices.toNat → ∃ oid,
        g j (marketOrderParams symbol side (round8 (total_qty / (slices : ℚ))))
          = .ok oid) →
      (twap g symbol side total_qty interval_sec slices).1.calls.length = slices.toNat ∧
      (twap g symbol side total_qty interval_sec slices).1.placed.length = slices.toNat ∧
      (twap g symbol side total_qty interval_sec slices).2 = RunOutcome.completed) ∧
    (∀ j e, j < slices.toNat →
      (∀ t, t < j → ∃ oid,
        g t (marketOrderParams symbol side (round8 (total_qty / (slices : ℚ))))
          = .ok oid) →
      g j (marketOrderParams symbol side (round8 (total_qty / (slices : ℚ))))
        = .error e →
      (twap g symbol side total_qty interval_sec slices).1.calls.length = j + 1 ∧
      (twap g symbol side total_qty interval_sec slices).2 = RunOutcome.aborted j e) ∧
    (∃ results,
      place_twap_order og symbol side total_qty duration_min slices = some results ∧
      results.length = slices.toNat ∧
      ∀ j, j < slices.toNat →
        results.get? j
          = some (og j (marketOrderParams symbol side (total_qty / (slices : ℚ))))) := by
  have h1 : ¬ slices ≤ 0 := not_le.mpr hs
  have h2 : ¬ total_qty ≤ 0 := not_le.mpr hq
  have h3 : ¬ interval_sec ≤ 0 := not_le.mpr hi
  have htw : twap g symbol side total_qty interval_sec slices
      = runSlices g
          (fun _ => marketOrderParams symbol side (round8 (total_qty / (slices : ℚ))))
          0 slices.toNat := by
    simp [twap, h1, h2, h3]
  refine ⟨?_, ?_, ?_⟩
  · intro hok
    rw [htw]
    exact runSlices_all_ok g _ slices.toNat 0 (fun j hj => by simpa using hok j hj)
  · intro j e hj hok hfail
    rw [htw]
    have := runSlices_first_fail g
      (fun _ => marketOrderParams symbol side (round8 (total_qty / (slices : ℚ))))
      slices.toNat 0 j e hj (fun t ht => by simpa using hok t ht)
      (by simpa using hfail)
    simpa using this
  · have h4 : ¬ (slices ≤ 0 ∨ duration_min ≤ 0) := by
      push_neg
      exact ⟨hs, hd⟩
    refine ⟨placeTwapSlices og (marketOrderParams symbol side (total_qty / (slices : ℚ)))
        0 slices.toNat, ?_, ?_, ?_⟩
    · simp [place_twap_order, h4]
    · exact placeTwapSlices_length og _ slices.toNat 0
    · intro j hj
      simpa using placeTwapSlices_get og _ slices.toNat 0 j hj

/-- C1, witness: the amended theorem applied at the spec's own scenario —
`TWAP("BTCUSDT", BUY, 0.003, slices=3)` with a gateway that fails slice 2
(index 1): the run aborts at slice 1 after 2 attempts; the `codebase.py`
variant attempts all 3. -/
theorem twap_abort_and_place_twap_order_continue_witness :
    (0 : ℤ) < 3 ∧ (0 : ℚ) < 3/1000 ∧ (0 : ℚ) < 1 ∧
    ((twap slice2FailGateway "BTCUSDT" "BUY" (3/1000) 1 3).1.calls.length = 2 ∧
     (twap slice2FailGateway "BTCUSDT" "BUY" (3/1000) 1 3).2
       = RunOutcome.aborted 1 "venue rejection") ∧
    (∃ results,
      place_twap_order slice2FailOptGateway "BTCUSDT" "BUY" (3/1000) 1 3
        = some results ∧ results.length = (3 : ℤ).toNat ∧
      ∀ j, j < (3 : ℤ).toNat →
        results.get? j = some (slice2FailOptGateway j
          (marketOrderParams "BTCUSDT" "BUY" ((3/1000) / ((3 : ℤ) : ℚ))))) := by
  have h := twap_abort_and_place_twap_order_continue slice2FailGateway
    slice2FailOptGateway "BTCUSDT" "BUY" (3/1000) 1 1 3
    (by decide) (by norm_num) (by norm_num) (by norm_num)
  refine ⟨by decide, by norm_num, by norm_num, ?_, h.2.2⟩
  exact h.2.1 1 "venue rejection" (by decide)
    (fun t ht => by
      have : t = 0 := by omega
      subst this
      exact ⟨100, rfl⟩)
    rfl

/-! ## C4 — precondition rejection -/

/-- C4.  Any violation of the strategy preconditions (TWAP:
`slices > 0`, `total_qty > 0`, `interval_sec > 0`; GRID: `grids > 1`,
`lower_price < upper_price`, `quantity > 0`) makes the strategy raise a
`ValueError` synchronously, with zero placements attempted: the
precondition checks precede the slice/level loop
(`bot_logic.py`, lines 139–141 and 173–175). -/
theorem strategy_preconditions_reject_before_any_order
    (g : Gateway) (symbol side : String)
    (total_qty interval_sec lower_price upper_price quantity : ℚ)
    (slices grids : ℤ) :
    (¬(0 < slices ∧ 0 < total_qty ∧ 0 < interval_sec) →
      (twap g symbol side total_qty interval_sec slices).1.calls = [] ∧
      ∃ msg, (twap g symbol side total_qty interval_sec slices).2
        = RunOutcome.rejected msg) ∧
    (¬(1 < grids ∧ lower_price < upper_price ∧ 0 < quantity) →
      (grid g symbol lower_price upper_price grids quantity side).1.calls = [] ∧
      ∃ msg, (grid g symbol lower_price upper_price grids quantity side).2
        = RunOutcome.rejected msg) := by
  constructor
  · intro hviol
    by_cases h1 : slices ≤ 0
    · exact ⟨by simp [twap, h1],
        "Number of slices must be greater than 0.", by simp [twap, h1]⟩
    · by_cases h2 : total_qty ≤ 0
      · exact ⟨by simp [twap, h1, h2],
          "Total quantity must be greater than 0.", by simp [twap, h1, h2]⟩
      · by_cases h3 : interval_sec ≤ 0
        · exact ⟨by simp [twap, h1, h2, h3],
            "Interval must be greater than 0.", by simp [twap, h1, h2, h3]⟩
        · exact absurd ⟨not_le.mp h1, not_le.mp h2, not_le.mp h3⟩ hviol
  · intro hviol
    by_cases h1 : grids ≤ 1
    · exact ⟨by simp [grid, h1],
        "Number of grid levels must be at least 2.", by simp [grid, h1]⟩
    · by_cases h2 : upper_price ≤ lower_price
      · exact ⟨by simp [grid, h1, h2],
          "Lower price must be less than upper price.", by simp [grid, h1, h2]⟩
      · by_cases h3 : quantity ≤ 0
        · exact ⟨by simp [grid, h1, h2, h3],
            "Quantity per grid must be greater than 0.", by simp [grid, h1, h2, h3]⟩
        · exact absurd ⟨not_le.mp h1, not_le.mp h2, not_le.mp h3⟩ hviol

/-- C4, witness: `slices = 0` (TWAP) and `grids = 1` (GRID) are rejected
with no placement attempted. -/
theorem strategy_preconditions_reject_before_any_order_witness :
    (¬(0 < (0 : ℤ) ∧ 0 < (1 : ℚ) ∧ 0 < (1 : ℚ))) ∧
    ((twap alwaysOkGateway "BTCUSDT" "BUY" 1 1 0).1.calls = [] ∧
      ∃ msg, (twap alwaysOkGateway "BTCUSDT" "BUY" 1 1 0).2
        = RunOutcome.rejected msg) ∧
    (¬(1 < (1 : ℤ) ∧ (100 : ℚ) < 200 ∧ 0 < (1 : ℚ))) ∧
    ((grid alwaysOkGateway "BTCUSDT" 100 200 1 1 "BUY").1.calls = [] ∧
      ∃ msg, (grid alwaysOkGateway "BTCUSDT" 100 200 1 1 "BUY").2
        = RunOutcome.rejected msg) := by
  have h := strategy_preconditions_reject_before_any_order alwaysOkGateway
    "BTCUSDT" "BUY" 1 1 100 200 1 0 1
  exact ⟨by decide, h.1 (by decide), by decide, h.2 (by decide)⟩

/-! ## C5 — grid level prices -/

/-- C5.  For a GRID run satisfying its preconditions: every placement the
run makes at level `j` is a LIMIT order of the given side for the
per-level quantity at the computed price `round8` of
`lower_price + j * (upper_price - lower_price) / (grids - 1)`; the
computed price differs from that formula by at most half of `10⁻⁸` (the
fixed rounding tolerance of `round(…, 8)`); the level-price formula is
strictly increasing in the level, and the computed (rounded) prices are
monotonically nondecreasing. -/
theorem grid_level_prices_formula_and_monotone
    (g : Gateway) (symbol side : String) (lower_price upper_price quantity : ℚ)
    (grids : ℤ) (hg : 1 < grids) (hp : lower_price < upper_price) (hq : 0 < quantity) :
    (∀ j, j < (grid g symbol lower_price upper_price grids quantity side).1.calls.length →
      (grid g symbol lower_price upper_price grids quantity side).1.calls.get? j
        = some (limitOrderParams symbol side quantity
            (gridLevelPrice lower_price upper_price grids j))) ∧
    (∀ i, |gridLevelPrice lower_price upper_price grids i
        - gridLevelPriceExact lower_price upper_price grids i| ≤ 1 / 200000000) ∧
    (∀ i, gridLevelPriceExact lower_price upper_price grids i
        < gridLevelPriceExact lower_price upper_price grids (i + 1)) ∧
    (∀ i, gridLevelPrice lower_price upper_price grids i
        ≤ gridLevelPrice lower_price upper_price grids (i + 1)) := by
  have h1 : ¬ grids ≤ 1 := not_le.mpr hg
  have h2 : ¬ upper_price ≤ lower_price := not_le.mpr hp
  have h3 : ¬ quantity ≤ 0 := not_le.mpr hq
  have hgr : grid g symbol lower_price upper_price grids quantity side
      = runSlices g
          (fun i => limitOrderParams symbol side quantity
            (gridLevelPrice lower_price upper_price grids i)) 0 grids.toNat := by
    simp [grid, h1, h2, h3]
  have hgq : (1 : ℚ) < (grids : ℚ) := by exact_mod_cast hg
  have hstep : 0 < (upper_price - lower_price) / ((grids : ℚ) - 1) :=
    div_pos (by linarith) (by linarith)
  have hmono : ∀ i : ℕ, gridLevelPriceExact lower_price upper_price grids i
      < gridLevelPriceExact lower_price upper_price grids (i + 1) := by
    intro i
    unfold gridLevelPriceExact
    have hlt : ((i : ℚ)) * ((upper_price - lower_price) / ((grids : ℚ) - 1))
        < ((i : ℚ) + 1) * ((upper_price - lower_price) / ((grids : ℚ) - 1)) :=
      mul_lt_mul_of_pos_right (by linarith) hstep
    push_cast
    linarith
  refine ⟨?_, ?_, hmono, ?_⟩
  · intro j hj
    rw [hgr] at hj ⊢
    simpa using runSlices_calls_get g _ grids.toNat 0 j hj
  · intro i
    exact abs_round8_sub_le _
  · intro i
    exact round8_mono (le_of_lt (hmono i))

/-- C5, witness: the spec's own scenario
`GRID(lower=100, upper=200, gridLevels=3, quantityPerLevel=1)`, where the
level prices are 100, 150, 200. -/
theorem grid_level_prices_formula_and_monotone_witness :
    (1 : ℤ) < 3 ∧ (100 : ℚ) < 200 ∧ (0 : ℚ) < 1 ∧
    (∀ i, gridLevelPriceExact 100 200 3 i < gridLevelPriceExact 100 200 3 (i + 1)) ∧
    (∀ i, |gridLevelPrice 100 200 3 i - gridLevelPriceExact 100 200 3 i|
        ≤ 1 / 200000000) := by
  have h := grid_level_prices_formula_and_monotone alwaysOkGateway "BTCUSDT" "BUY"
    100 200 1 3 (by decide) (by norm_num) (by norm_num)
  exact ⟨by decide, by norm_num, by norm_num, h.2.2.1, h.2.1⟩

/-! ## C7 — idempotency keys -/

/-- C7, counterexample.  The claim says every order intent produced by a
TWAP or GRID run carries an idempotency key derived from
(run id, slice index).  On the code this is false: `place_order`
(`bot_logic.py`, lines 99–118) builds the parameter dictionary with keys
`symbol`, `side`, `quantity`, `type` (plus `timeInForce`/`price` for
LIMIT) and never sets `newClientOrderId` or any idempotency field, and
the strategies have no run id at all.  Concretely, the first intent of
`twap("BTCUSDT", "BUY", 0.003, 1, 3)` has exactly the four keys above
and no idempotency key. -/
theorem twap_intent_lacks_idempotency_key_cex :
    (twap alwaysOkGateway "BTCUSDT" "BUY" (3/1000) 1 3).1.calls.get? 0
      = some (marketOrderParams "BTCUSDT" "BUY" (round8 ((3/1000) / ((3 : ℤ) : ℚ)))) ∧
    hasIdempotencyKey
      (marketOrderParams "BTCUSDT" "BUY" (round8 ((3/1000) / ((3 : ℤ) : ℚ)))) = false ∧
    (marketOrderParams "BTCUSDT" "BUY"
      (round8 ((3/1000) / ((3 : ℤ) : ℚ)))).map Prod.fst
        = ["symbol", "side", "quantity", "type"] := by
  have h1 : ¬ ((3 : ℤ) ≤ 0) := by norm_num
  have h2 : ¬ ((3/1000 : ℚ) ≤ 0) := by norm_num
  have h3 : ¬ ((1 : ℚ) ≤ 0) := by norm_num
  have htw : twap alwaysOkGateway "BTCUSDT" "BUY" (3/1000) 1 3
      = runSlices alwaysOkGateway
          (fun _ => marketOrderParams "BTCUSDT" "BUY" (round8 ((3/1000) / ((3 : ℤ) : ℚ))))
          0 (3 : ℤ).toNat := by
    simp [twap, h1, h2, h3]
  refine ⟨?_, by simp [hasIdempotencyKey, hasParamKey, marketOrderParams], rfl⟩
  rw [htw]
  have hlen : 0 < (runSlices alwaysOkGateway
      (fun _ => marketOrderParams "BTCUSDT" "BUY" (round8 ((3/1000) / ((3 : ℤ) : ℚ))))
      0 (3 : ℤ).toNat).1.calls.length := by
    have hok : alwaysOkGateway 0
        (marketOrderParams "BTCUSDT" "BUY" (round8 ((3/1000) / ((3 : ℤ) : ℚ))))
        = .ok 100 := rfl
    rw [show (3 : ℤ).toNat = 2 + 1 from rfl,
      @runSlices_succ_ok alwaysOkGateway
        (fun _ => marketOrderParams "BTCUSDT" "BUY" (round8 ((3/1000) / ((3 : ℤ) : ℚ))))
        0 2 100 hok]
    simp
  simpa using runSlices_calls_get alwaysOkGateway _ (3 : ℤ).toNat 0 0 hlen

/-- C7, amended.  No intent produced by either strategy carries an
idempotency key: a TWAP slice's parameter keys are exactly
`symbol`/`side`/`quantity`/`type` and a GRID level's are those plus
`timeInForce`/`price`, with no client-order-id field, so
gateway-side duplicate rejection has nothing to key on.  What does hold
is determinism: the intent attempted at index `j` is a function of the
strategy parameters and `j` alone — independent of the gateway's
behaviour, hence identical across any two submissions of the same run
parameters. -/
theorem strategy_intents_deterministic_without_idempotency_key
    (g : Gateway) (symbol side sym sd : String)
    (total_qty interval_sec lower_price upper_price quantity q pr : ℚ)
    (slices grids : ℤ) :
    (hasIdempotencyKey (marketOrderParams sym sd q) = false ∧
     (marketOrderParams sym sd q).map Prod.fst
        = ["symbol", "side", "quantity", "type"]) ∧
    (hasIdempotencyKey (limitOrderParams sym sd q pr) = false ∧
     (limitOrderParams sym sd q pr).map Prod.fst
        = ["symbol", "side", "quantity", "type", "timeInForce", "price"]) ∧
    (∀ j, j < (twap g symbol side total_qty interval_sec slices).1.calls.length →
      (twap g symbol side total_qty interval_sec slices).1.calls.get? j
        = some (marketOrderParams symbol side
            (round8 (total_qty / (slices : ℚ))))) ∧
    (∀ j, j < (grid g symbol lower_price upper_price grids quantity side).1.calls.length →
      (grid g symbol lower_price upper_price grids quantity side).1.calls.get? j
        = some (limitOrderParams symbol side quantity
            (gridLevelPrice lower_price upper_price grids j))) := by
  refine ⟨⟨by simp [hasIdempotencyKey, hasParamKey, marketOrderParams], rfl⟩,
    ⟨by simp [hasIdempotencyKey, hasParamKey, limitOrderParams], rfl⟩, ?_, ?_⟩
  · intro j hj
    by_cases h1 : slices ≤ 0
    · simp [twap, h1] at hj
    · by_cases h2 : total_qty ≤ 0
      · simp [twap, h1, h2] at hj
      · by_cases h3 : interval_sec ≤ 0
        · simp [twap, h1, h2, h3] at hj
        · simp only [twap, h1, h2, h3, if_false] at hj ⊢
          simpa using runSlices_calls_get g _ slices.toNat 0 j hj
  · intro j hj
    by_cases h1 : grids ≤ 1
    · simp [grid, h1] at hj
    · by_cases h2 : upper_price ≤ lower_price
      · simp [grid, h1, h2] at hj
      · by_cases h3 : quantity ≤ 0
        · simp [grid, h1, h2, h3] at hj
        · simp only [grid, h1, h2, h3, if_false] at hj ⊢
          simpa using runSlices_calls_get g _ grids.toNat 0 j hj

/-- C7, witness: the determinism theorem applied at the C7 scenario —
whatever the gateway answers, the first TWAP intent's parameters are
fixed by the run parameters and index, and they carry no idempotency
key. -/
theorem strategy_intents_deterministic_without_idempotency_key_witness :
    hasIdempotencyKey (marketOrderParams "BTCUSDT" "BUY" 1) = false ∧
    (∀ j, j < (twap failingGateway "ethusdt" "sell" 5 2 4).1.calls.length →
      (twap failingGateway "ethusdt" "sell" 5 2 4).1.calls.get? j
        = some (marketOrderParams "ethusdt" "sell" (round8 (5 / ((4 : ℤ) : ℚ))))) := by
  have h := strategy_intents_deterministic_without_idempotency_key failingGateway
    "ethusdt" "sell" "BTCUSDT" "BUY" 5 2 100 200 1 1 1 4 3
  exact ⟨h.1.1, h.2.2.1⟩

/-! ## C6 — broadcast failure isolation -/

/-- C6.  In one `broadcast_to_clients` call: every current subscriber
whose send succeeds receives the message, no matter how many other
subscribers' sends raise; every subscriber whose send raises is removed
from the subscriber list by the end of the call; and the surviving list
consists exactly of the current subscribers whose send succeeded. -/
theorem broadcast_isolates_subscriber_failures (sendOk : Client → Bool)
    (active : List Client) (hne : active ≠ []) :
    (∀ c, c ∈ active → sendOk c = true →
      c ∈ (broadcastToClients sendOk active).1) ∧
    (∀ c, c ∈ active → sendOk c = false →
      c ∉ (broadcastToClients sendOk active).2) ∧
    (∀ c, c ∈ (broadcastToClients sendOk active).2 →
      c ∈ active ∧ sendOk c = true) := by
  simp only [broadcastToClients, if_neg hne]
  refine ⟨?_, ?_, ?_⟩
  · intro c hc hok
    exact List.mem_filter.mpr ⟨hc, hok⟩
  · intro c hc hbad hmem
    have h := List.mem_filter.mp hmem
    have hcontains : (active.filter fun x => !(sendOk x)).contains c = true := by
      have : c ∈ active.filter fun x => !(sendOk x) :=
        List.mem_filter.mpr ⟨hc, by simp [hbad]⟩
      simpa using this
    rw [hcontains] at h
    simp at h
  · intro c hmem
    have h := List.mem_filter.mp hmem
    refine ⟨h.1, ?_⟩
    by_contra hbad
    have hbad' : sendOk c = false := by
      cases hsc : sendOk c
      · rfl
      · exact absurd hsc hbad
    have hcontains : (active.filter fun x => !(sendOk x)).contains c = true := by
      have : c ∈ active.filter fun x => !(sendOk x) :=
        List.mem_filter.mpr ⟨h.1, by simp [hbad']⟩
      simpa using this
    rw [hcontains] at h
    simp at h

/-- C6, witness: publishing to subscribers `[1, 2, 3]` where subscriber
`2`'s send always errors — `1` and `3` still receive the message and `2`
is removed. -/
theorem broadcast_isolates_subscriber_failures_witness :
    ([1, 2, 3] : List Client) ≠ [] ∧
    1 ∈ (broadcastToClients (fun c => decide (c ≠ 2)) [1, 2, 3]).1 ∧
    3 ∈ (broadcastToClients (fun c => decide (c ≠ 2)) [1, 2, 3]).1 ∧
    2 ∉ (broadcastToClients (fun c => decide (c ≠ 2)) [1, 2, 3]).2 := by
  have h := broadcast_isolates_subscriber_failures (fun c => decide (c ≠ 2))
    [1, 2, 3] (by decide)
  exact ⟨by decide,
    h.1 1 (by decide) (by decide),
    h.1 3 (by decide) (by decide),
    h.2.1 2 (by decide) (by decide)⟩

/-! ## C2 — fill events and the TradeRecorder -/

/-- A terminal fill: an `executionReport` whose order status is
`FILLED`. -/
def filledReport : RawMsg :=
  { RawMsg.empty with
    e := some "executionReport"
    i := some 12345
    s := some "BTCUSDT"
    S := some "BUY"
    o := some "MARKET"
    X := some "FILLED" }

/-- C2, counterexample.  The claim says every terminal fill decoded from
the stream is forwarded exactly once to the TradeRecorder after
subscriber fan-out, also when zero subscribers are attached.  On the code
this is false: `_process_user_data_message` (`bot_logic.py`,
lines 236–275) only schedules `broadcast_to_clients`; no TradeRecorder
(or any trade-persistence call) appears in the stream path.  Concretely,
a `FILLED` execution report produces zero recorder notifications with
zero subscribers attached (indeed zero deliveries at all, because
`broadcast_to_clients` returns early on an empty subscriber list), and
still zero recorder notifications with one subscriber attached. -/
theorem fill_event_not_forwarded_to_recorder_cex :
    ((handleUserDataMessage (fun _ => true) filledReport []).1.countP
      Delivery.isRecorderNotification = 0) ∧
    (handleUserDataMessage (fun _ => true) filledReport []).1 = [] ∧
    ((handleUserDataMessage (fun _ => true) filledReport [7]).1.countP
      Delivery.isRecorderNotification = 0) ∧
    (handleUserDataMessage (fun _ => true) filledReport [7]).1.length = 1 := by
  refine ⟨rfl, rfl, rfl, rfl⟩

/-- C2, amended.  Handling an upstream message never notifies a
TradeRecorder: every delivery the handler makes is a broadcast to a
currently-attached subscriber, and with zero subscribers attached a
decoded event (fills included) produces no delivery anywhere.  Trade
persistence exists in the repository only as the separate
`trade_service.log_trade` used by the HTTP request path, which the
stream handler never calls. -/
theorem stream_deliveries_subscribers_only (sendOk : Client → Bool)
    (msg : RawMsg) (active : List Client) :
    ((handleUserDataMessage sendOk msg active).1.countP
      Delivery.isRecorderNotification = 0) ∧
    (∀ d ∈ (handleUserDataMessage sendOk msg active).1,
      ∃ c pm, d = Delivery.toSubscriber c pm) ∧
    (handleUserDataMessage sendOk msg []).1 = [] := by
  unfold handleUserDataMessage
  cases processUserDataMessage msg with
  | none => simp
  | some pm =>
    refine ⟨?_, ?_, ?_⟩
    · rw [List.countP_map]
      simp [Function.comp_def, Delivery.isRecorderNotification]
    · intro d hd
      simp only [List.mem_map] at hd
      obtain ⟨c, _, rfl⟩ := hd
      exact ⟨c, pm, rfl⟩
    · simp [broadcastToClients]

/-- The one delivery made for `filledReport` when subscriber `7` is
attached. -/
def filledDelivery : Delivery :=
  Delivery.toSubscriber 7 (ProcessedMsg.orderUpdate
    { orderId := some 12345
      symbol := some "BTCUSDT"
      side := some "BUY"
      orderType := some "MARKET"
      status := some "FILLED"
      quantity := none
      price := none
      executedQuantity := none
      lastExecutedPrice := none
      commission := none
      commissionAsset := none
      transactionTime := none
      orderTime := none })

/-- C2, witness (amended theorem): handling a `FILLED` report with one
subscriber attached notifies no recorder, and its one delivery is a
subscriber broadcast. -/
theorem stream_deliveries_subscribers_only_witness :
    ((handleUserDataMessage (fun _ => true) filledReport [7]).1.countP
      Delivery.isRecorderNotification = 0) ∧
    (filledDelivery ∈ (handleUserDataMessage (fun _ => true) filledReport [7]).1 ∧
      ∃ c pm, filledDelivery = Delivery.toSubscriber c pm) ∧
    (handleUserDataMessage (fun _ => true) filledReport []).1 = [] := by
  have h := stream_deliveries_subscribers_only (fun _ => true) filledReport [7]
  exact ⟨h.1, ⟨by decide, h.2.1 filledDelivery (by decide)⟩, h.2.2⟩

/-! ## C8 — unrecognized event types -/

/-- C8.  Any upstream message whose event-type tag is not one of
`error`, `executionReport`, `outboundAccountPosition` is dropped by the
decode step: no processed message is built, nothing is broadcast and the
subscriber list is untouched.  (The handler's embedding is a total
function, reflecting that this path raises nothing.) -/
theorem unrecognized_event_type_dropped (sendOk : Client → Bool)
    (msg : RawMsg) (active : List Client)
    (h : msg.e ≠ some "error" ∧ msg.e ≠ some "executionReport" ∧
      msg.e ≠ some "outboundAccountPosition") :
    processUserDataMessage msg = none ∧
    handleUserDataMessage sendOk msg active = ([], active) := by
  obtain ⟨h1, h2, h3⟩ := h
  have hp : processUserDataMessage msg = none := by
    simp [processUserDataMessage, h1, h2, h3]
  refine ⟨hp, ?_⟩
  unfold handleUserDataMessage
  rw [hp]

/-- A message of an event type the decoder does not recognize. -/
def unrecognizedMsg : RawMsg :=
  { RawMsg.empty with e := some "listenKeyExpired" }

/-- C8, witness: a `listenKeyExpired` message is dropped and leaves the
subscriber list untouched. -/
theorem unrecognized_event_type_dropped_witness :
    (unrecognizedMsg.e ≠ some "error" ∧
      unrecognizedMsg.e ≠ some "executionReport" ∧
      unrecognizedMsg.e ≠ some "outboundAccountPosition") ∧
    processUserDataMessage unrecognizedMsg = none ∧
    handleUserDataMessage (fun _ => true) unrecognizedMsg [5] = ([], [5]) := by
  have h := unrecognized_event_type_dropped (fun _ => true) unrecognizedMsg [5]
    ⟨by decide, by decide, by decide⟩
  exact ⟨⟨by decide, by decide, by decide⟩, h.1, h.2⟩

/-! ## C10 — non-zero balance filtering -/

/-- C10.  `get_account_info` returns exactly the balances with
`free > 0 or locked > 0` — every returned balance is non-zero, every
balance satisfying the condition is kept, and an all-zero balance is
dropped.  A decoded `outboundAccountPosition` is broadcast as a
`balance_update` only when its non-zero-balance list is non-empty: a
snapshot with no balance satisfying `free > 0 or locked > 0` produces no
processed message at all, and whenever a processed message is produced
it is a `balance_update` carrying a non-empty list, so some raw balance
was non-zero. -/
theorem nonzero_balance_filtering (balances : List AccountBalance)
    (msg : RawMsg) (hmsg : msg.e = some "outboundAccountPosition") :
    (∀ b ∈ get_account_info balances, 0 < b.free ∨ 0 < b.locked) ∧
    (∀ b ∈ balances, (0 < b.free ∨ 0 < b.locked) → b ∈ get_account_info balances) ∧
    (∀ b ∈ balances, b.free = 0 → b.locked = 0 → b ∉ get_account_info balances) ∧
    ((∀ b ∈ msg.B, ¬(0 < b.f.getD 0 ∨ 0 < b.l.getD 0)) →
      processUserDataMessage msg = none) ∧
    (∀ pm, processUserDataMessage msg = some pm →
      ∃ bs, pm = ProcessedMsg.balanceUpdate bs ∧ bs ≠ [] ∧
        ∃ b ∈ msg.B, 0 < b.f.getD 0 ∨ 0 < b.l.getD 0) := by
  refine ⟨?_, ?_, ?_, ?_, ?_⟩
  · intro b hb
    have h := List.mem_filter.mp hb
    have := h.2
    simp only [Bool.or_eq_true, decide_eq_true_eq] at this
    exact this
  · intro b hb hcond
    refine List.mem_filter.mpr ⟨hb, ?_⟩
    simp only [Bool.or_eq_true, decide_eq_true_eq]
    exact hcond
  · intro b hb hf hl hmem
    have h := List.mem_filter.mp hmem
    have := h.2
    simp only [Bool.or_eq_true, decide_eq_true_eq, hf, hl] at this
    exact absurd this (by norm_num)
  · intro hall
    have hfilter : (msg.B.filter fun b =>
        decide (0 < b.f.getD 0) || decide (0 < b.l.getD 0)) = [] := by
      rw [List.filter_eq_nil_iff]
      intro b hb
      simp only [Bool.or_eq_true, decide_eq_true_eq]
      exact hall b hb
    simp [processUserDataMessage, hmsg, hfilter]
  · intro pm hpm
    unfold processUserDataMessage at hpm
    rw [hmsg, if_neg (by decide : ¬ (some "outboundAccountPosition"
        = some "error" : Prop)),
      if_neg (by decide : ¬ (some "outboundAccountPosition"
        = some "executionReport" : Prop))] at hpm
    dsimp only [] at hpm
    set active := (msg.B.filter fun b =>
      decide (0 < b.f.getD 0) || decide (0 < b.l.getD 0)).map
      fun b => ({ asset := b.a, free := b.f, locked := b.l } : BalanceOut) with hact
    by_cases hemp : active = []
    · rw [if_pos hemp] at hpm
      exact absurd hpm (by simp)
    · rw [if_neg hemp] at hpm
      refine ⟨active, by simpa using hpm.symm, hemp, ?_⟩
      have hfne : (msg.B.filter fun b =>
          decide (0 < b.f.getD 0) || decide (0 < b.l.getD 0)) ≠ [] := by
        intro hnil
        exact hemp (by rw [hact, hnil]; rfl)
      obtain ⟨b, hb⟩ := List.exists_mem_of_ne_nil _ hfne
      have h := List.mem_filter.mp hb
      refine ⟨b, h.1, ?_⟩
      have := h.2
      simp only [Bool.or_eq_true, decide_eq_true_eq] at this
      exact this

/-- A balance snapshot whose only balance is all-zero. -/
def zeroSnapshotMsg : RawMsg :=
  { RawMsg.empty with
    e := some "outboundAccountPosition"
    B := [⟨some "BTC", some 0, some 0⟩] }

/-- Sample account balances: one all-zero entry to be dropped, one
non-zero entry to be kept. -/
def demoBalances : List AccountBalance := [⟨"BTC", 0, 0⟩, ⟨"ETH", 1, 0⟩]

/-- C10, witness: the all-zero snapshot produces no broadcast, and every
balance `get_account_info` returns from the sample list is non-zero. -/
theorem nonzero_balance_filtering_witness :
    zeroSnapshotMsg.e = some "outboundAccountPosition" ∧
    processUserDataMessage zeroSnapshotMsg = none ∧
    (∀ b ∈ get_account_info demoBalances, 0 < b.free ∨ 0 < b.locked) := by
  have h := nonzero_balance_filtering demoBalances zeroSnapshotMsg rfl
  refine ⟨rfl, h.2.2.2.1 ?_, h.1⟩
  intro b hb
  have : b = (⟨some "BTC", some 0, some 0⟩ : RawBalance) := by
    simpa [zeroSnapshotMsg, RawMsg.empty] using hb
  subst this
  norm_num

/-! ## State-machine lemmas for the stream lifecycle -/

/-- Adding a websocket client changes no stream-related state. -/
theorem addWebsocketClient_stream_eq (c : Client) (w : StreamWorld) :
    (addWebsocketClient c w).bot.userDataStreamStarted = w.bot.userDataStreamStarted ∧
    (addWebsocketClient c w).bot.userDataStreamKey = w.bot.userDataStreamKey ∧
    (addWebsocketClient c w).bot.twm = w.bot.twm ∧
    (addWebsocketClient c w).live = w.live ∧
    (addWebsocketClient c w).created = w.created := by
  by_cases h : c ∈ w.bot.activeWebsockets <;> simp [addWebsocketClient, h]

/-- Removing a websocket client changes no stream-related state. -/
theorem removeWebsocketClient_stream_eq (c : Client) (w : StreamWorld) :
    (removeWebsocketClient c w).bot.userDataStreamStarted = w.bot.userDataStreamStarted ∧
    (removeWebsocketClient c w).bot.userDataStreamKey = w.bot.userDataStreamKey ∧
    (removeWebsocketClient c w).bot.twm = w.bot.twm ∧
    (removeWebsocketClient c w).live = w.live ∧
    (removeWebsocketClient c w).created = w.created := by
  unfold removeWebsocketClient
  simp

/-- `SessionInv` only depends on the manager, the stored key and the live
socket list. -/
theorem sessionInv_of_eq {w w' : StreamWorld}
    (ht : w'.bot.twm = w.bot.twm)
    (hk : w'.bot.userDataStreamKey = w.bot.userDataStreamKey)
    (hl : w'.live = w.live) (h : SessionInv w) : SessionInv w' := by
  unfold SessionInv at h ⊢
  rw [ht, hk, hl]
  exact h

/-- Under the invariant, stopping the current manager's sockets (the
cleanup of `bot_logic.py`, lines 284–286) leaves nothing live. -/
theorem sessionInv_live_empty {w : StreamWorld} (hinv : SessionInv w) :
    (match w.bot.twm with
      | some m0 => w.live.filter fun pr => decide (pr.1 ≠ m0)
      | none => w.live) = [] := by
  unfold SessionInv at hinv
  cases htwm : w.bot.twm with
  | none =>
    rw [htwm] at hinv
    simp [hinv]
  | some m0 =>
    rw [htwm] at hinv
    rcases hinv with h | ⟨k, _, hl⟩
    · simp [h]
    · simp [hl]

/-- Every atomic lifecycle step except a `stop` whose upstream
`stop_socket` call fails preserves the session invariant. -/
theorem sessionInv_step (op : Op) (w : StreamWorld)
    (hop : op ≠ Op.stopStream StopEnv.failStopSocket)
    (hinv : SessionInv w) : SessionInv (stepW op w) := by
  cases op with
  | addClient c =>
    have h := addWebsocketClient_stream_eq c w
    exact sessionInv_of_eq h.2.2.1 h.2.1 h.2.2.2.1 hinv
  | removeClient c =>
    have h := removeWebsocketClient_stream_eq c w
    exact sessionInv_of_eq h.2.2.1 h.2.1 h.2.2.2.1 hinv
  | startStream env =>
    show SessionInv (startUserDataStream env w)
    unfold startUserDataStream
    by_cases hst : w.bot.userDataStreamStarted
    · rw [if_pos hst]; exact hinv
    · rw [if_neg hst]
      have hl1 := sessionInv_live_empty hinv
      cases env
      · unfold SessionInv
        simp only [hl1]
        exact Or.inr ⟨w.fresh + 1, rfl, rfl⟩
      · unfold SessionInv
        dsimp only
        rw [hl1]
        simp
      · unfold SessionInv
        dsimp only
        rw [hl1]
        simp
  | stopStream env =>
    show SessionInv (stopUserDataStream env w)
    unfold stopUserDataStream
    by_cases hc : w.bot.userDataStreamStarted = false ∨ w.bot.twm = none
    · rw [if_pos hc]; exact hinv
    · rw [if_neg hc]
      push_neg at hc
      obtain ⟨m, htwm⟩ := Option.ne_none_iff_exists'.mp hc.2
      unfold SessionInv at hinv
      rw [htwm] at hinv
      cases env
      · unfold SessionInv
        rcases hinv with h | ⟨k, hk, hl⟩
        · cases hkey : w.bot.userDataStreamKey <;> simp [h]
        · rw [hk, hl]
          simp
      · exact absurd rfl hop
      · unfold SessionInv
        rcases hinv with h | ⟨k, hk, hl⟩
        · cases hkey : w.bot.userDataStreamKey <;> simp [h]
        · rw [hk, hl]
          simp

/-- The session invariant holds along any interleaving whose stop steps
succeed upstream. -/
theorem sessionInv_runW (ops : List Op) :
    ∀ w, (∀ op ∈ ops, op ≠ Op.stopStream StopEnv.failStopSocket) →
      SessionInv w → SessionInv (runW ops w) := by
  induction ops with
  | nil => intro w _ h; exact h
  | cons op ops ih =>
    intro w hops h
    simp only [runW, List.foldl_cons]
    exact ih (stepW op w)
      (fun o ho => hops o (List.mem_cons_of_mem _ ho))
      (sessionInv_step op w (hops op (List.mem_cons_self _ _)) h)

/-- Under the invariant, at most one upstream socket is live. -/
theorem sessionInv_length_le {w : StreamWorld} (h : SessionInv w) :
    w.live.length ≤ 1 := by
  unfold SessionInv at h
  cases htwm : w.bot.twm with
  | none => rw [htwm] at h; simp [h]
  | some m =>
    rw [htwm] at h
    rcases h with h | ⟨k, _, h⟩ <;> simp [h]

/-- The invariant characterizing the reachable states of a pure
attach/start workload: either the stream was never started (no sockets
ever created) or it is running with exactly one socket ever created and
exactly one live. -/
def AttachInv (w : StreamWorld) : Prop :=
  (w.bot.userDataStreamStarted = false ∧ w.bot.twm = none ∧
    w.created = 0 ∧ w.live = []) ∨
  (w.bot.userDataStreamStarted = true ∧ w.created = 1 ∧ w.live.length = 1)

/-- A successful `start_user_data_stream` moves `AttachInv` to its
running side. -/
theorem attachInv_start_ok {w : StreamWorld} (h : AttachInv w) :
    AttachInv (startUserDataStream StartEnv.ok w) ∧
    (startUserDataStream StartEnv.ok w).bot.userDataStreamStarted = true := by
  rcases h with ⟨hst, htwm, hcr, hlv⟩ | ⟨hst, hcr, hlv⟩
  · unfold startUserDataStream
    rw [if_neg (by rw [hst]; exact Bool.false_ne_true)]
    refine ⟨Or.inr ⟨rfl, ?_, ?_⟩, rfl⟩
    · simp [hcr]
    · rw [htwm]
      simp [hlv]
  · unfold startUserDataStream
    rw [if_pos hst]
    exact ⟨Or.inr ⟨hst, hcr, hlv⟩, hst⟩

/-- Along any interleaving of attach bookkeeping steps and successful
start steps, `AttachInv` is preserved, and once some start has executed
the stream is running. -/
theorem attachInv_runW (ops : List Op) :
    ∀ w, (∀ op ∈ ops, (∃ c, op = Op.addClient c) ∨ op = Op.startStream StartEnv.ok) →
      AttachInv w →
      AttachInv (runW ops w) ∧
      ((w.bot.userDataStreamStarted = true ∨
          ∃ op ∈ ops, op = Op.startStream StartEnv.ok) →
        (runW ops w).bot.userDataStreamStarted = true) := by
  induction ops with
  | nil =>
    intro w _ h
    refine ⟨h, ?_⟩
    rintro (hst | ⟨op, hop, _⟩)
    · exact hst
    · simp at hop
  | cons op ops ih =>
    intro w hops h
    have hopsTail : ∀ o ∈ ops, (∃ c, o = Op.addClient c) ∨ o = Op.startStream StartEnv.ok :=
      fun o ho => hops o (List.mem_cons_of_mem _ ho)
    simp only [runW, List.foldl_cons]
    rcases hops op (List.mem_cons_self _ _) with ⟨c, rfl⟩ | rfl
    · have hfields := addWebsocketClient_stream_eq c w
      have h' : AttachInv (addWebsocketClient c w) := by
        unfold AttachInv at h ⊢
        rw [hfields.1, hfields.2.2.1, hfields.2.2.2.1, hfields.2.2.2.2]
        exact h
      have hrec := ih (addWebsocketClient c w) hopsTail h'
      refine ⟨hrec.1, ?_⟩
      rintro (hst | ⟨o, ho, hoeq⟩)
      · exact hrec.2 (Or.inl (by rw [hfields.1]; exact hst))
      · rcases List.mem_cons.mp ho with rfl | hmem
        · cases hoeq
        · exact hrec.2 (Or.inr ⟨o, hmem, hoeq⟩)
    · have hstep := attachInv_start_ok h
      have hrec := ih (startUserDataStream StartEnv.ok w) hopsTail hstep.1
      exact ⟨hrec.1, fun _ => hrec.2 (Or.inl hstep.2)⟩

/-- The fresh bot of `BasicBot.__init__` satisfies the session
invariant. -/
theorem sessionInv_initWorld : SessionInv initWorld := rfl

/-! ## C3 — at most one live stream session per identity -/

/-- C3.  For one trading identity (one `BasicBot` instance): along every
interleaving of the attach/detach/start/stop critical sections in which
the upstream socket-stop calls take effect, at most one upstream
user-data session is live at every instant; and for a workload of `N`
concurrent attaches (any interleaving of client-add steps and successful
start steps, at least one of which runs the start section), exactly one
session is ever created and exactly one is live at the end.  (The
hypothesis on stop steps is needed: in the `except` branch of
`stop_user_data_stream` the code abandons the manager without having
closed its socket, which is the one path that can leak a second live
session.) -/
theorem single_live_stream_session_invariant (ops : List Op)
    (hstop : ∀ op ∈ ops, op ≠ Op.stopStream StopEnv.failStopSocket) :
    (runW ops initWorld).live.length ≤ 1 ∧
    ((∀ op ∈ ops, (∃ c, op = Op.addClient c) ∨ op = Op.startStream StartEnv.ok) →
      (∃ op ∈ ops, op = Op.startStream StartEnv.ok) →
      (runW ops initWorld).created = 1 ∧ (runW ops initWorld).live.length = 1) := by
  constructor
  · exact sessionInv_length_le (sessionInv_runW ops initWorld hstop sessionInv_initWorld)
  · intro hall hex
    have h := attachInv_runW ops initWorld hall
      (Or.inl ⟨rfl, rfl, rfl, rfl⟩)
    have hstarted := h.2 (Or.inr hex)
    rcases h.1 with ⟨hf, _⟩ | ⟨_, hc, hl⟩
    · rw [hstarted] at hf
      exact absurd hf (by simp)
    · exact ⟨hc, hl⟩

/-- Two clients attaching concurrently: one interleaving of their atomic
steps. -/
def attachOps : List Op :=
  [.addClient 1, .addClient 2, .startStream .ok, .startStream .ok]

/-- C3, witness: two concurrent attaches for the same identity — both
run the start section, exactly one session is created and live. -/
theorem single_live_stream_session_invariant_witness :
    (∀ op ∈ attachOps, op ≠ Op.stopStream StopEnv.failStopSocket) ∧
    (runW attachOps initWorld).live.length ≤ 1 ∧
    (runW attachOps initWorld).created = 1 ∧
    (runW attachOps initWorld).live.length = 1 := by
  have h := single_live_stream_session_invariant attachOps (by decide)
  refine ⟨by decide, h.1, h.2 ?_ ?_⟩
  · intro op hop
    simp only [attachOps, List.mem_cons, List.mem_singleton] at hop
    rcases hop with rfl | rfl | rfl | (rfl | h')
    · exact Or.inl ⟨1, rfl⟩
    · exact Or.inl ⟨2, rfl⟩
    · exact Or.inr rfl
    · exact Or.inr rfl
    · simp at h'
  · exact ⟨Op.startStream StartEnv.ok, by decide, rfl⟩

/-! ## C9 — stop is idempotent -/

/-- Stopping when not running (or with no manager) is the early-return
path and changes nothing. -/
theorem stop_eq_of_not_running {w : StreamWorld} (e : StopEnv)
    (h : w.bot.userDataStreamStarted = false ∨ w.bot.twm = none) :
    stopUserDataStream e w = w := by
  unfold stopUserDataStream
  rw [if_pos h]

/-- After any `stop_user_data_stream` call, either the stream flag is
down or the call was the early return (whose precondition then still
holds). -/
theorem stop_result_not_running (e : StopEnv) (w : StreamWorld) :
    (stopUserDataStream e w).bot.userDataStreamStarted = false ∨
    (w.bot.userDataStreamStarted = false ∨ w.bot.twm = none) := by
  unfold stopUserDataStream
  by_cases hc : w.bot.userDataStreamStarted = false ∨ w.bot.twm = none
  · exact Or.inr hc
  · rw [if_neg hc]
    cases e <;> simp

/-- C9.  `stop_user_data_stream` is idempotent: called while the stream
is not running it returns without touching any state; for any state and
any behaviour of the upstream stop/join calls, calling it twice in
succession yields exactly the state of calling it once; and a normal
stop from a running state leaves the stopped state — stream flag false,
stream key and manager cleared. -/
theorem stop_user_data_stream_idempotent (w : StreamWorld) (e e₁ e₂ : StopEnv) :
    (w.bot.userDataStreamStarted = false → stopUserDataStream e w = w) ∧
    (stopUserDataStream e₁ (stopUserDataStream e₂ w) = stopUserDataStream e₂ w) ∧
    (w.bot.userDataStreamStarted = true → w.bot.twm ≠ none →
      (stopUserDataStream StopEnv.ok w).bot.userDataStreamStarted = false ∧
      (stopUserDataStream StopEnv.ok w).bot.userDataStreamKey = none ∧
      (stopUserDataStream StopEnv.ok w).bot.twm = none) := by
  refine ⟨fun h => stop_eq_of_not_running e (Or.inl h), ?_, ?_⟩
  · rcases stop_result_not_running e₂ w with hdown | hearly
    · exact stop_eq_of_not_running e₁ (Or.inl hdown)
    · rw [stop_eq_of_not_running e₂ hearly]
      exact stop_eq_of_not_running e₁ hearly
  · intro h1 h2
    have hcond : ¬ (w.bot.userDataStreamStarted = false ∨ w.bot.twm = none) := by
      rw [h1]
      simp [h2]
    unfold stopUserDataStream
    rw [if_neg hcond]
    exact ⟨rfl, rfl, rfl⟩

/-- A world in which the stream is running: a fresh bot after one
successful start. -/
def runningWorld : StreamWorld := startUserDataStream StartEnv.ok initWorld

/-- C9, witness: stopping the never-started bot changes nothing;
stopping the running bot twice equals stopping it once, and the stopped
state has flag false and key and manager cleared. -/
theorem stop_user_data_stream_idempotent_witness :
    initWorld.bot.userDataStreamStarted = false ∧
    stopUserDataStream StopEnv.ok initWorld = initWorld ∧
    runningWorld.bot.userDataStreamStarted = true ∧
    runningWorld.bot.twm ≠ none ∧
    stopUserDataStream StopEnv.ok (stopUserDataStream StopEnv.ok runningWorld)
      = stopUserDataStream StopEnv.ok runningWorld ∧
    (stopUserDataStream StopEnv.ok runningWorld).bot.userDataStreamStarted = false ∧
    (stopUserDataStream StopEnv.ok runningWorld).bot.userDataStreamKey = none ∧
    (stopUserDataStream StopEnv.ok runningWorld).bot.twm = none := by
  have h0 := stop_user_data_stream_idempotent initWorld StopEnv.ok StopEnv.ok StopEnv.ok
  have h1 := stop_user_data_stream_idempotent runningWorld StopEnv.ok StopEnv.ok StopEnv.ok
  exact ⟨rfl, h0.1 rfl, rfl, by decide, h1.2.1, h1.2.2 rfl (by decide)⟩

end TradeBot
